import Mathlib

/-!
Shallow embedding of the decoder resolution-and-lifecycle framework of
SFBAudioEngine (src/Decoders/AudioDecoder.cpp).  Machine state is modelled
explicitly; every operation returns its result together with the new state,
the final content of the caller's error out-parameter, and a trace of the
plugin hooks (respectively registry events) it invoked, so that statements
about "no hook is invoked" and about query order are expressible.
-/

namespace SFB.Audio

/-- Structured error payloads written through the `CFErrorRef *` out-parameter.
The concrete CF string contents are abstracted; only which failure wrote the
error matters for the specification. -/
inductive Err where
  | sourceOpenFailed
  | sourceCloseFailed
  | hookOpenFailed
  | hookCloseFailed
  | unknownFileType
  deriving DecidableEq, Repr

/-- A URL as the decoder framework observes it: only its path extension is
consulted (`CFURLCopyPathExtension`), which may be absent. -/
structure CFURL where
  pathExtension : Option String
  deriving DecidableEq, Repr

/-- The byte-source abstraction (`InputSource`): an openable/closeable stream
with an identity (so ownership transfer of the very same object can be
tracked), a locator, and fixed success/failure behaviour of its `Open` and
`Close` operations. -/
structure InputSource where
  id : Nat
  isOpen : Bool
  openOk : Bool
  closeOk : Bool
  url : Option CFURL
  deriving DecidableEq, Repr

/-- `InputSource::Open(error)`: on success the source becomes open; on failure
the source is unchanged and an error is written. -/
def InputSource.openSrc (s : InputSource) (err : Option Err) :
    Bool × InputSource × Option Err :=
  if s.openOk then (true, { s with isOpen := true }, err)
  else (false, s, some Err.sourceOpenFailed)

/-- `InputSource::Close(error)`: on success the source becomes closed; on
failure the source is unchanged and an error is written. -/
def InputSource.closeSrc (s : InputSource) (err : Option Err) :
    Bool × InputSource × Option Err :=
  if s.closeOk then (true, { s with isOpen := false }, err)
  else (false, s, some Err.sourceCloseFailed)

/-- Behaviour of the plugin-specific hooks a concrete decoder subclass
implements (`_Open`, `_Close`, `_ReadAudio`, `_GetTotalFrames`,
`_GetCurrentFrame`, `_SupportsSeeking`, `_SeekToFrame`). -/
structure Hooks where
  openResult : Bool
  closeResult : Bool
  readResult : Nat → Nat
  totalFrames : Int
  currentFrame : Int
  seekingSupported : Bool
  seekResult : Int → Int

/-- Markers recording which plugin hook an operation invoked. -/
inductive HookEvent where
  | openHook
  | closeHook
  | readHook
  | totalFramesHook
  | currentFrameHook
  | seekingHook
  | seekHook
  deriving DecidableEq, Repr

/-- A decoder instance: the owned input source, the `mIsOpen` flag, and the
plugin hooks its subclass supplies. -/
structure Decoder where
  mInputSource : InputSource
  mIsOpen : Bool
  hooks : Hooks

/-- Result of `Decoder::Open` / `Decoder::Close`: the boolean result, the
decoder afterwards, the error out-parameter afterwards, and the plugin hooks
invoked. -/
structure OpResult where
  ok : Bool
  dec : Decoder
  err : Option Err
  hookCalls : List HookEvent

/-- `SFB::Audio::Decoder::Open`: no-op success when already open; otherwise
ensures the owned input source is open (propagating its failure without
invoking the hook), then invokes `_Open`; only on hook success does `mIsOpen`
become true. -/
def Decoder.Open (d : Decoder) (err : Option Err) : OpResult :=
  if d.mIsOpen then ⟨true, d, err, []⟩
  else
    match (if d.mInputSource.isOpen then (true, d.mInputSource, err)
           else d.mInputSource.openSrc err) with
    | (false, s, e) => ⟨false, { d with mInputSource := s }, e, []⟩
    | (true, s, e) =>
      if d.hooks.openResult then
        ⟨true, { d with mInputSource := s, mIsOpen := true }, e, [HookEvent.openHook]⟩
      else
        ⟨false, { d with mInputSource := s }, some Err.hookOpenFailed,
          [HookEvent.openHook]⟩

/-- `SFB::Audio::Decoder::Close`: no-op success when already closed; otherwise
invokes `_Close`, clears `mIsOpen` only when the hook succeeded, then closes
the owned input source; the result is false when either the hook or the
source close failed. -/
def Decoder.Close (d : Decoder) (err : Option Err) : OpResult :=
  if !d.mIsOpen then ⟨true, d, err, []⟩
  else
    let result := d.hooks.closeResult
    let e1 : Option Err := if result then err else some Err.hookCloseFailed
    let d1 : Decoder := if result then { d with mIsOpen := false } else d
    match d1.mInputSource.closeSrc e1 with
    | (false, s, e2) => ⟨false, { d1 with mInputSource := s }, e2, [HookEvent.closeHook]⟩
    | (true, s, e2) => ⟨result, { d1 with mInputSource := s }, e2, [HookEvent.closeHook]⟩

/-- `SFB::Audio::Decoder::ReadAudio`: 0 without invoking the hook when the
decoder is not open or the arguments are invalid (null buffer list or zero
frame count); otherwise delegates to `_ReadAudio`. -/
def Decoder.ReadAudio (d : Decoder) (bufferList : Option Unit) (frameCount : Nat) :
    Nat × List HookEvent :=
  if !d.mIsOpen then (0, [])
  else if bufferList.isNone || frameCount == 0 then (0, [])
  else (d.hooks.readResult frameCount, [HookEvent.readHook])

/-- `SFB::Audio::Decoder::GetTotalFrames`: -1 when not open, else `_GetTotalFrames`. -/
def Decoder.GetTotalFrames (d : Decoder) : Int × List HookEvent :=
  if !d.mIsOpen then (-1, [])
  else (d.hooks.totalFrames, [HookEvent.totalFramesHook])

/-- `SFB::Audio::Decoder::GetCurrentFrame`: -1 when not open, else `_GetCurrentFrame`. -/
def Decoder.GetCurrentFrame (d : Decoder) : Int × List HookEvent :=
  if !d.mIsOpen then (-1, [])
  else (d.hooks.currentFrame, [HookEvent.currentFrameHook])

/-- `SFB::Audio::Decoder::SupportsSeeking`: false when not open, else `_SupportsSeeking`. -/
def Decoder.SupportsSeeking (d : Decoder) : Bool × List HookEvent :=
  if !d.mIsOpen then (false, [])
  else (d.hooks.seekingSupported, [HookEvent.seekingHook])

/-- `SFB::Audio::Decoder::SeekToFrame`: -1 when not open (no hook); -1 when
`frame < 0` (the `0 > frame` disjunct short-circuits, so the total-frames hook
is not invoked); -1 when `frame >= GetTotalFrames()` (total-frames hook
invoked, seek hook not); otherwise delegates to `_SeekToFrame`. -/
def Decoder.SeekToFrame (d : Decoder) (frame : Int) : Int × List HookEvent :=
  if !d.mIsOpen then (-1, [])
  else if frame < 0 then (-1, [])
  else
    let t := d.GetTotalFrames
    if t.1 ≤ frame then (-1, t.2)
    else (d.hooks.seekResult frame, t.2 ++ [HookEvent.seekHook])

/-- A registered decoder subclass descriptor (`SubclassInfo`): its supported
extension and MIME-type lists, against which the plugin-level
`HandlesFilesWithExtension` / `HandlesMIMEType` function pointers perform
case-insensitive comparison (as the concrete plugins do via `CFStringCompare`
with `kCFCompareCaseInsensitive`), and the hook behaviour of the decoders its
`CreateDecoder` factory produces. -/
structure SubclassInfo where
  extensions : List String
  mimeTypes : List String
  hooks : Hooks

/-- Case-insensitive string comparison, the abstraction of `CFStringCompare`
with `kCFCompareCaseInsensitive`: equality after mapping every character to
its lower-case form. -/
def ciEq (a b : String) : Bool :=
  a.data.map Char.toLower == b.data.map Char.toLower

/-- The plugin-level extension capability test: case-insensitive comparison of
the argument against each supported extension. -/
def SubclassInfo.handlesExt (info : SubclassInfo) (extension : String) : Bool :=
  info.extensions.any (fun e => ciEq extension e)

/-- The plugin-level MIME-type capability test: case-insensitive comparison of
the argument against each supported MIME type. -/
def SubclassInfo.handlesMIME (info : SubclassInfo) (mimeType : String) : Bool :=
  info.mimeTypes.any (fun m => ciEq mimeType m)

/-- `SFB::Audio::Decoder::HandlesFilesWithExtension`: false for a null
argument, otherwise scans the registered subclasses in registration order and
returns true at the first whose capability test succeeds. -/
def HandlesFilesWithExtension (subs : List SubclassInfo) (extension : Option String) : Bool :=
  match extension with
  | none => false
  | some ext => subs.any (fun info => info.handlesExt ext)

/-- `SFB::Audio::Decoder::HandlesMIMEType`: false for a null argument,
otherwise scans the registered subclasses in registration order and returns
true at the first whose capability test succeeds. -/
def HandlesMIMEType (subs : List SubclassInfo) (mimeType : Option String) : Bool :=
  match mimeType with
  | none => false
  | some mime => subs.any (fun info => info.handlesMIME mime)

/-- Events of a resolution run: which plugin was asked whether it handles the
MIME type or the extension, and which plugin a decoder was constructed for,
recording the identity and open state of the input source handed to it, and
whether an automatic open of the constructed decoder was attempted. -/
inductive ResolveEvent where
  | mimeQuery (i : Nat)
  | extQuery (i : Nat)
  | construct (i : Nat) (srcId : Nat) (srcOpen : Bool)
  | openTry (i : Nat)
  deriving DecidableEq, Repr

/-- The MIME-type loop of `CreateDecoderForInputSource`: for each registered
subclass (paired with its registration index) that handles the MIME type,
construct a decoder around the current input source; without automatic open
return it immediately; with automatic open attempt `Open`, returning the
decoder on success and otherwise taking the input source back from the failed
decoder and continuing with the remaining subclasses. -/
def mimeScan (autoOpen : Bool) (mime : String) :
    List (Nat × SubclassInfo) → InputSource → Option Err →
    Option Decoder × InputSource × Option Err × List ResolveEvent
  | [], src, err => (none, src, err, [])
  | (i, info) :: rest, src, err =>
    if info.handlesMIME mime then
      let d : Decoder := ⟨src, false, info.hooks⟩
      let evs : List ResolveEvent :=
        [ResolveEvent.mimeQuery i, ResolveEvent.construct i src.id src.isOpen]
      if autoOpen then
        let r := d.Open err
        if r.ok then (some r.dec, src, r.err, evs ++ [ResolveEvent.openTry i])
        else
          let out := mimeScan autoOpen mime rest r.dec.mInputSource r.err
          (out.1, out.2.1, out.2.2.1, evs ++ [ResolveEvent.openTry i] ++ out.2.2.2)
      else (some d, src, err, evs)
    else
      let out := mimeScan autoOpen mime rest src err
      (out.1, out.2.1, out.2.2.1, ResolveEvent.mimeQuery i :: out.2.2.2)

/-- The extension loop of `CreateDecoderForInputSource`, identical in shape to
the MIME-type loop but keyed on the path extension. -/
def extScan (autoOpen : Bool) (ext : String) :
    List (Nat × SubclassInfo) → InputSource → Option Err →
    Option Decoder × InputSource × Option Err × List ResolveEvent
  | [], src, err => (none, src, err, [])
  | (i, info) :: rest, src, err =>
    if info.handlesExt ext then
      let d : Decoder := ⟨src, false, info.hooks⟩
      let evs : List ResolveEvent :=
        [ResolveEvent.extQuery i, ResolveEvent.construct i src.id src.isOpen]
      if autoOpen then
        let r := d.Open err
        if r.ok then (some r.dec, src, r.err, evs ++ [ResolveEvent.openTry i])
        else
          let out := extScan autoOpen ext rest r.dec.mInputSource r.err
          (out.1, out.2.1, out.2.2.1, evs ++ [ResolveEvent.openTry i] ++ out.2.2.2)
      else (some d, src, err, evs)
    else
      let out := extScan autoOpen ext rest src err
      (out.1, out.2.1, out.2.2.1, ResolveEvent.extQuery i :: out.2.2.2)

/-- The extension-based tail of `CreateDecoderForInputSource`: consult the
source's locator — no locator yields null with the error slot untouched, a
locator without path extension yields null writing the unknown-file-type
error (the `CreateErrorForURL` call at the missing-extension branch),
otherwise the extension loop runs. -/
def extensionPhase (autoOpen : Bool) (subs : List SubclassInfo)
    (src : InputSource) (err : Option Err) :
    Option Decoder × Option Err × List ResolveEvent :=
  match src.url with
  | none => (none, err, [])
  | some u =>
    match u.pathExtension with
    | none => (none, some Err.unknownFileType, [])
    | some ext =>
      let out := extScan autoOpen ext subs.enum src err
      (out.1, out.2.2.1, out.2.2.2)

/-- The body of `CreateDecoderForInputSource` after the source has been
ensured open: a supplied MIME type drives the MIME loop first; only when that
yields no decoder (or no MIME type was supplied) does the extension-based
phase run, on whatever input source the MIME loop left behind. -/
def resolvePhases (autoOpen : Bool) (subs : List SubclassInfo) (src1 : InputSource)
    (mimeType : Option String) (e1 : Option Err) :
    Option Decoder × Option Err × List ResolveEvent :=
  match mimeType with
  | some mime =>
    match mimeScan autoOpen mime subs.enum src1 e1 with
    | (some d, _, e2, tr) => (some d, e2, tr)
    | (none, src2, e2, tr) =>
      let out := extensionPhase autoOpen subs src2 e2
      (out.1, out.2.1, tr ++ out.2.2)
  | none => extensionPhase autoOpen subs src1 e1

/-- `SFB::Audio::Decoder::CreateDecoderForInputSource` (the MIME-taking
overload): null source yields null at once; with automatic open enabled an
unopened source is opened first (failure aborting resolution); then the MIME
and extension phases run.  Returns the decoder (if any), the final error slot,
and the trace of registry events. -/
def CreateDecoderForInputSource (autoOpen : Bool) (subs : List SubclassInfo)
    (inputSource : Option InputSource) (mimeType : Option String) (err : Option Err) :
    Option Decoder × Option Err × List ResolveEvent :=
  match inputSource with
  | none => (none, err, [])
  | some src0 =>
    match (if autoOpen && !src0.isOpen then src0.openSrc err else (true, src0, err)) with
    | (false, _, e) => (none, e, [])
    | (true, src1, e1) => resolvePhases autoOpen subs src1 mimeType e1

/-- The overload of `CreateDecoderForInputSource` without a MIME-type
argument: delegates with a null MIME type. -/
def CreateDecoderForInputSource2 (autoOpen : Bool) (subs : List SubclassInfo)
    (inputSource : Option InputSource) (err : Option Err) :
    Option Decoder × Option Err × List ResolveEvent :=
  CreateDecoderForInputSource autoOpen subs inputSource none err

/-- `SFB::Audio::Decoder::CreateDecoderForURL` (MIME-taking overload): builds
an input source via the external `InputSource::CreateInputSourceForURL`
(passed in abstractly, threading the error slot) and resolves it. -/
def CreateDecoderForURL
    (createInputSourceForURL : CFURL → Option Err → Option InputSource × Option Err)
    (autoOpen : Bool) (subs : List SubclassInfo) (url : CFURL)
    (mimeType : Option String) (err : Option Err) :
    Option Decoder × Option Err × List ResolveEvent :=
  let p := createInputSourceForURL url err
  CreateDecoderForInputSource autoOpen subs p.1 mimeType p.2

/-- The overload of `CreateDecoderForURL` without a MIME-type argument:
delegates with a null MIME type. -/
def CreateDecoderForURL2
    (createInputSourceForURL : CFURL → Option Err → Option InputSource × Option Err)
    (autoOpen : Bool) (subs : List SubclassInfo) (url : CFURL) (err : Option Err) :
    Option Decoder × Option Err × List ResolveEvent :=
  CreateDecoderForURL createInputSourceForURL autoOpen subs url none err

/-- The region wrapper (`LoopableRegionDecoder`), modelled opaquely by the
parameters its constructors receive; its internal behaviour lives outside the
sources under verification. -/
structure LoopableRegionDecoder where
  inner : Decoder
  startingFrame : Int
  frameCount : Option Nat
  repeatCount : Option Nat

/-- `CreateDecoderForDecoderRegion(decoder, startingFrame, error)`: null for a
null inner decoder, else wraps it. -/
def CreateDecoderForDecoderRegion (decoder : Option Decoder) (startingFrame : Int) :
    Option LoopableRegionDecoder :=
  match decoder with
  | none => none
  | some d => some ⟨d, startingFrame, none, none⟩

/-- `CreateDecoderForDecoderRegion` with a frame count: null for a null inner
decoder, else wraps it. -/
def CreateDecoderForDecoderRegion2 (decoder : Option Decoder) (startingFrame : Int)
    (frameCount : Nat) : Option LoopableRegionDecoder :=
  match decoder with
  | none => none
  | some d => some ⟨d, startingFrame, some frameCount, none⟩

/-- `CreateDecoderForDecoderRegion` with frame count and repeat count: null
for a null inner decoder, else wraps it. -/
def CreateDecoderForDecoderRegion3 (decoder : Option Decoder) (startingFrame : Int)
    (frameCount : Nat) (repeatCount : Nat) : Option LoopableRegionDecoder :=
  match decoder with
  | none => none
  | some d => some ⟨d, startingFrame, some frameCount, some repeatCount⟩

/-- `CreateDecoderForInputSourceRegion(inputSource, startingFrame, error)`:
null for a null input source, else resolves a decoder (MIME-less overload) and
wraps it. -/
def CreateDecoderForInputSourceRegion (autoOpen : Bool) (subs : List SubclassInfo)
    (inputSource : Option InputSource) (startingFrame : Int) (err : Option Err) :
    Option LoopableRegionDecoder × Option Err :=
  match inputSource with
  | none => (none, err)
  | some s =>
    let r := CreateDecoderForInputSource2 autoOpen subs (some s) err
    (CreateDecoderForDecoderRegion r.1 startingFrame, r.2.1)

/-- `CreateDecoderForInputSourceRegion` with a frame count: null for a null
input source, else resolves and wraps. -/
def CreateDecoderForInputSourceRegion2 (autoOpen : Bool) (subs : List SubclassInfo)
    (inputSource : Option InputSource) (startingFrame : Int) (frameCount : Nat)
    (err : Option Err) : Option LoopableRegionDecoder × Option Err :=
  match inputSource with
  | none => (none, err)
  | some s =>
    let r := CreateDecoderForInputSource2 autoOpen subs (some s) err
    (CreateDecoderForDecoderRegion2 r.1 startingFrame frameCount, r.2.1)

/-- `CreateDecoderForInputSourceRegion` with frame count and repeat count:
null for a null input source, else resolves and wraps. -/
def CreateDecoderForInputSourceRegion3 (autoOpen : Bool) (subs : List SubclassInfo)
    (inputSource : Option InputSource) (startingFrame : Int) (frameCount : Nat)
    (repeatCount : Nat) (err : Option Err) :
    Option LoopableRegionDecoder × Option Err :=
  match inputSource with
  | none => (none, err)
  | some s =>
    let r := CreateDecoderForInputSource2 autoOpen subs (some s) err
    (CreateDecoderForDecoderRegion3 r.1 startingFrame frameCount repeatCount, r.2.1)

/-- Marker predicate for MIME capability queries in a resolution trace. -/
def ResolveEvent.isMimeQuery : ResolveEvent → Bool
  | ResolveEvent.mimeQuery _ => true
  | _ => false

/-- Marker predicate for extension capability queries in a resolution trace. -/
def ResolveEvent.isExtQuery : ResolveEvent → Bool
  | ResolveEvent.extQuery _ => true
  | _ => false

/-! Concrete fixtures used by counterexamples and witnesses. -/

/-- Hook behaviour with every hook succeeding, 100 total frames, and an
identity seek. -/
def idHooks : Hooks :=
  ⟨true, true, fun n => n, 100, 0, true, fun f => f⟩

/-- Hook behaviour whose close hook fails. -/
def failingCloseHooks : Hooks :=
  ⟨true, false, fun n => n, 100, 0, true, fun f => f⟩

/-- An open input source with a locator carrying the extension "wv". -/
def wvSource : InputSource :=
  ⟨0, true, true, true, some ⟨some "wv"⟩⟩

/-- An open decoder over `wvSource` whose close hook fails. -/
def failingCloseDecoder : Decoder :=
  ⟨wvSource, true, failingCloseHooks⟩

/-- A decoder over `wvSource` that is not open. -/
def closedDecoder : Decoder :=
  ⟨wvSource, false, idHooks⟩

/-- An open decoder over `wvSource` with well-behaved hooks. -/
def openDecoder : Decoder :=
  ⟨wvSource, true, idHooks⟩

/-! Claim C1. -/

/-- Claim C1 counterexample: on an open decoder whose close hook fails,
`Close` leaves the decoder in the Open state, so the decoder is not in the
Closed state afterwards in every case. -/
theorem close_hook_failure_leaves_open :
    ¬ (failingCloseDecoder.Close none).dec.mIsOpen = false := by
  decide

/-- Claim C1 (amended): for every decoder in the Open state, `Close` invokes
the close hook, transitions to Closed exactly when the hook succeeds
(remaining Open when it fails), then closes the owned byte source in every
case (the source ends up closed whenever its close succeeds); the returned
result is false if either the close hook or the source close failed. -/
theorem close_state_result_source (d : Decoder) (e0 : Option Err)
    (h : d.mIsOpen = true) :
    (d.Close e0).dec.mIsOpen = !d.hooks.closeResult
    ∧ (d.Close e0).ok = (d.hooks.closeResult && d.mInputSource.closeOk)
    ∧ (d.mInputSource.closeOk = true → (d.Close e0).dec.mInputSource.isOpen = false)
    ∧ (d.Close e0).hookCalls = [HookEvent.closeHook] := by
  cases hc : d.hooks.closeResult <;> cases hk : d.mInputSource.closeOk <;>
    simp [Decoder.Close, InputSource.closeSrc, h, hc, hk]

/-- Witness for the amended C1 theorem at a concrete open decoder. -/
theorem close_state_result_source_witness :
    (failingCloseDecoder.Close none).dec.mIsOpen = !failingCloseDecoder.hooks.closeResult
    ∧ (failingCloseDecoder.Close none).ok
        = (failingCloseDecoder.hooks.closeResult && failingCloseDecoder.mInputSource.closeOk)
    ∧ (failingCloseDecoder.mInputSource.closeOk = true →
        (failingCloseDecoder.Close none).dec.mInputSource.isOpen = false)
    ∧ (failingCloseDecoder.Close none).hookCalls = [HookEvent.closeHook] :=
  close_state_result_source failingCloseDecoder none rfl

/-! Claim C4. -/

/-- Claim C4: for every decoder not in the Open state and all argument
values, `ReadAudio` returns 0, `GetTotalFrames`, `GetCurrentFrame` and
`SeekToFrame` return -1, `SupportsSeeking` returns false, and none of these
calls invokes a plugin hook (all hook traces are empty). -/
theorem closed_decoder_safety (d : Decoder) (h : d.mIsOpen = false)
    (bufferList : Option Unit) (frameCount : Nat) (frame : Int) :
    d.ReadAudio bufferList frameCount = (0, [])
    ∧ d.GetTotalFrames = (-1, [])
    ∧ d.GetCurrentFrame = (-1, [])
    ∧ d.SeekToFrame frame = (-1, [])
    ∧ d.SupportsSeeking = (false, []) := by
  simp [Decoder.ReadAudio, Decoder.GetTotalFrames, Decoder.GetCurrentFrame,
    Decoder.SeekToFrame, Decoder.SupportsSeeking, h]

/-- Witness for C4 at a concrete closed decoder and concrete arguments. -/
theorem closed_decoder_safety_witness :
    closedDecoder.ReadAudio (some ()) 17 = (0, [])
    ∧ closedDecoder.GetTotalFrames = (-1, [])
    ∧ closedDecoder.GetCurrentFrame = (-1, [])
    ∧ closedDecoder.SeekToFrame 3 = (-1, [])
    ∧ closedDecoder.SupportsSeeking = (false, []) :=
  closed_decoder_safety closedDecoder rfl (some ()) 17 3

/-! Claim C5. -/

/-- Claim C5: `Open` on an already-open decoder returns success without
invoking any hook and without changing the decoder or the error slot, and
`Close` on an already-closed decoder does likewise (both are idempotent). -/
theorem open_close_idempotent (d1 d2 : Decoder) (e1 e2 : Option Err)
    (h1 : d1.mIsOpen = true) (h2 : d2.mIsOpen = false) :
    d1.Open e1 = ⟨true, d1, e1, []⟩ ∧ d2.Close e2 = ⟨true, d2, e2, []⟩ := by
  constructor
  · simp [Decoder.Open, h1]
  · simp [Decoder.Close, h2]

/-- Witness for C5 at a concrete open and a concrete closed decoder. -/
theorem open_close_idempotent_witness :
    openDecoder.Open none = ⟨true, openDecoder, none, []⟩
    ∧ closedDecoder.Close (some Err.unknownFileType)
        = ⟨true, closedDecoder, some Err.unknownFileType, []⟩ :=
  open_close_idempotent openDecoder closedDecoder none (some Err.unknownFileType) rfl rfl

/-! Claim C7. -/

/-- Claim C7: on an open decoder, `SeekToFrame` returns -1 without invoking
the seek hook when the frame is negative or at least the total frame count,
and for a frame within bounds delegates to the seek hook, returning the
hook's resulting frame position (the bounds check itself consults the
total-frames hook). -/
theorem seek_bounds (d : Decoder) (frame : Int) (h : d.mIsOpen = true) :
    ((frame < 0 ∨ d.hooks.totalFrames ≤ frame) →
      (d.SeekToFrame frame).1 = -1
      ∧ HookEvent.seekHook ∉ (d.SeekToFrame frame).2)
    ∧ (0 ≤ frame → frame < d.hooks.totalFrames →
      d.SeekToFrame frame
        = (d.hooks.seekResult frame, [HookEvent.totalFramesHook, HookEvent.seekHook])) := by
  constructor
  · intro hout
    rcases hout with hneg | hbig
    · simp [Decoder.SeekToFrame, Decoder.GetTotalFrames, h, hneg]
    · rcases lt_or_le frame 0 with hneg | hnonneg
      · simp [Decoder.SeekToFrame, Decoder.GetTotalFrames, h, hneg]
      · have hnn : ¬ frame < 0 := not_lt.mpr hnonneg
        simp [Decoder.SeekToFrame, Decoder.GetTotalFrames, h, hbig, hnn]
  · intro hlo hhi
    have h1 : ¬ frame < 0 := not_lt.mpr hlo
    have h2 : ¬ d.hooks.totalFrames ≤ frame := not_le.mpr hhi
    simp [Decoder.SeekToFrame, Decoder.GetTotalFrames, h, h1, h2]

/-- Witness for C7: a concrete in-bounds seek on a concrete open decoder. -/
theorem seek_bounds_witness :
    openDecoder.SeekToFrame 5
      = (openDecoder.hooks.seekResult 5,
          [HookEvent.totalFramesHook, HookEvent.seekHook]) :=
  (seek_bounds openDecoder 5 rfl).2 (by decide) (by decide)

/-! Claim C8. -/

/-- Claim C8 (amended): the registry capability queries return false for a
null argument, and for a non-null argument return true iff some registered
descriptor's case-insensitive comparison succeeds, short-circuiting at the
first matching descriptor in registration order (in particular a match at the
head decides the query whatever follows); for the empty string they behave
like any other string, i.e. they return true exactly when some descriptor
registers an extension or MIME type that compares equal to it. -/
theorem handles_queries_spec (subs : List SubclassInfo) (ext mime : String) :
    HandlesFilesWithExtension subs none = false
    ∧ HandlesMIMEType subs none = false
    ∧ (HandlesFilesWithExtension subs (some ext) = true
        ↔ ∃ info ∈ subs, info.handlesExt ext = true)
    ∧ (HandlesMIMEType subs (some mime) = true
        ↔ ∃ info ∈ subs, info.handlesMIME mime = true)
    ∧ (∀ info rest, info.handlesExt ext = true →
        HandlesFilesWithExtension (info :: rest) (some ext) = true)
    ∧ (∀ info rest, info.handlesMIME mime = true →
        HandlesMIMEType (info :: rest) (some mime) = true) := by
  refine ⟨rfl, rfl, ?_, ?_, ?_, ?_⟩
  · simp [HandlesFilesWithExtension, List.any_eq_true]
  · simp [HandlesMIMEType, List.any_eq_true]
  · intro info rest h
    simp [HandlesFilesWithExtension, h]
  · intro info rest h
    simp [HandlesMIMEType, h]

/-- A registered descriptor advertising the empty string as a supported
extension and MIME type. -/
def emptyExtensionInfo : SubclassInfo :=
  ⟨[""], [""], idHooks⟩

/-- Claim C8 counterexample: the queries have no empty-input guard, so with a
descriptor registering the empty extension the query on the empty string
returns true, not false. -/
theorem handles_empty_matches :
    ¬ HandlesFilesWithExtension [emptyExtensionInfo] (some "") = false := by
  decide

/-- The WavPack descriptor, as registered by the WavPack decoder subclass. -/
def wvInfo : SubclassInfo :=
  ⟨["wv"], ["audio/wavpack"], idHooks⟩

/-- Witness for the amended C8 theorem: the head-match short-circuit case
evaluated at the WavPack descriptor and an upper-case extension. -/
theorem handles_queries_spec_witness :
    HandlesFilesWithExtension (wvInfo :: []) (some "WV") = true :=
  (handles_queries_spec [] "WV" "audio/wavpack").2.2.2.2.1 wvInfo [] (by decide)

/-! Claim C9. -/

/-- Claim C9: resolving with a null input source returns null at once, with
the error out-parameter unchanged and an empty event trace (so the registry is
never consulted and no decoder is constructed), and every region-construction
entry point returns null for a null input source or null inner decoder. -/
theorem null_inputs_return_null :
    (∀ (autoOpen : Bool) (subs : List SubclassInfo) (mimeType : Option String)
        (err : Option Err),
      CreateDecoderForInputSource autoOpen subs none mimeType err = (none, err, []))
    ∧ (∀ (autoOpen : Bool) (subs : List SubclassInfo) (startingFrame : Int)
        (err : Option Err),
      CreateDecoderForInputSourceRegion autoOpen subs none startingFrame err
        = (none, err))
    ∧ (∀ (autoOpen : Bool) (subs : List SubclassInfo) (startingFrame : Int)
        (frameCount : Nat) (err : Option Err),
      CreateDecoderForInputSourceRegion2 autoOpen subs none startingFrame frameCount err
        = (none, err))
    ∧ (∀ (autoOpen : Bool) (subs : List SubclassInfo) (startingFrame : Int)
        (frameCount repeatCount : Nat) (err : Option Err),
      CreateDecoderForInputSourceRegion3 autoOpen subs none startingFrame frameCount
        repeatCount err = (none, err))
    ∧ (∀ startingFrame : Int, CreateDecoderForDecoderRegion none startingFrame = none)
    ∧ (∀ (startingFrame : Int) (frameCount : Nat),
      CreateDecoderForDecoderRegion2 none startingFrame frameCount = none)
    ∧ (∀ (startingFrame : Int) (frameCount repeatCount : Nat),
      CreateDecoderForDecoderRegion3 none startingFrame frameCount repeatCount = none) :=
  ⟨fun _ _ _ _ => rfl, fun _ _ _ _ => rfl, fun _ _ _ _ _ => rfl,
    fun _ _ _ _ _ _ => rfl, fun _ => rfl, fun _ _ => rfl, fun _ _ _ => rfl⟩

/-! Claim C10. -/

/-- Claim C10: the resolver overloads that omit the MIME-type argument are
observationally equal to the MIME-taking overloads called with a null MIME
type, both for the URL entry point and for the input-source entry point. -/
theorem overloads_delegate :
    (∀ (mk : CFURL → Option Err → Option InputSource × Option Err) (autoOpen : Bool)
        (subs : List SubclassInfo) (url : CFURL) (err : Option Err),
      CreateDecoderForURL2 mk autoOpen subs url err
        = CreateDecoderForURL mk autoOpen subs url none err)
    ∧ (∀ (autoOpen : Bool) (subs : List SubclassInfo)
        (inputSource : Option InputSource) (err : Option Err),
      CreateDecoderForInputSource2 autoOpen subs inputSource err
        = CreateDecoderForInputSource autoOpen subs inputSource none err) :=
  ⟨fun _ _ _ _ _ => rfl, fun _ _ _ _ => rfl⟩

/-! Claim C6. -/

/-- An open input source that has no locator at all. -/
def srcNoURL : InputSource :=
  ⟨7, true, true, true, none⟩

/-- An open input source whose locator has no path extension. -/
def srcNoExt : InputSource :=
  ⟨8, true, true, true, some ⟨none⟩⟩

/-- Claim C6 counterexample: with no locator, resolution returns null without
writing the unknown-file-type error — the error out-parameter is left
untouched, contradicting the claim that it is populated in both cases. -/
theorem no_locator_no_error :
    (CreateDecoderForInputSource false [] (some srcNoURL) none none).1 = none
    ∧ ¬ (CreateDecoderForInputSource false [] (some srcNoURL) none none).2.1
        = some Err.unknownFileType :=
  ⟨rfl, by decide⟩

/-- Claim C6 (amended): when resolution reaches the extension-based step with
no MIME type supplied, a source without a locator makes resolution fail
returning no decoder with the error out-parameter left unchanged, while a
locator without a path extension makes it fail writing the descriptive
unknown-file-type error. -/
theorem unknown_file_type_error (autoOpen : Bool) (subs : List SubclassInfo)
    (src : InputSource) (e0 : Option Err) (hopen : src.isOpen = true) :
    (src.url = none →
      CreateDecoderForInputSource autoOpen subs (some src) none e0 = (none, e0, []))
    ∧ (∀ u, src.url = some u → u.pathExtension = none →
      CreateDecoderForInputSource autoOpen subs (some src) none e0
        = (none, some Err.unknownFileType, [])) := by
  constructor
  · intro hu
    simp [CreateDecoderForInputSource, resolvePhases, extensionPhase, hopen, hu]
  · intro u hu hext
    simp [CreateDecoderForInputSource, resolvePhases, extensionPhase, hopen, hu, hext]

/-- Witness for the amended C6 theorem at a concrete extensionless source. -/
theorem unknown_file_type_error_witness :
    CreateDecoderForInputSource false [] (some srcNoExt) none none
      = (none, some Err.unknownFileType, []) :=
  (unknown_file_type_error false [] srcNoExt none rfl).2 ⟨none⟩ rfl rfl

/-! Lemmas about the resolver loops, used by the precedence (C2) and
reclaim-and-continue (C3) claims.  The first group are branch equations for
`mimeScan` / `extScan` at a cons cell. -/

/-- Opening a freshly constructed decoder over an already-open source with a
failing open hook: the hook runs, the decoder stays closed, and the very same
input source is still owned by the failed decoder (so it can be taken back). -/
theorem Open_fail_keeps_source (src : InputSource) (hooks : Hooks) (e : Option Err)
    (hopen : src.isOpen = true) (hfail : hooks.openResult = false) :
    Decoder.Open ⟨src, false, hooks⟩ e
      = ⟨false, ⟨src, false, hooks⟩, some Err.hookOpenFailed, [HookEvent.openHook]⟩ := by
  simp [Decoder.Open, hopen, hfail]

/-- Branch equation: MIME match at the head without automatic open. -/
theorem mimeScan_cons_pos_noauto (mime : String) (i : Nat) (info : SubclassInfo)
    (rest : List (Nat × SubclassInfo)) (src : InputSource) (err : Option Err)
    (hm : info.handlesMIME mime = true) :
    mimeScan false mime ((i, info) :: rest) src err
      = (some ⟨src, false, info.hooks⟩, src, err,
         [ResolveEvent.mimeQuery i, ResolveEvent.construct i src.id src.isOpen]) := by
  simp [mimeScan, hm]

/-- Branch equation: MIME match at the head, automatic open succeeding. -/
theorem mimeScan_cons_pos_auto_ok (mime : String) (i : Nat) (info : SubclassInfo)
    (rest : List (Nat × SubclassInfo)) (src : InputSource) (err : Option Err)
    (hm : info.handlesMIME mime = true)
    (hok : (Decoder.Open ⟨src, false, info.hooks⟩ err).ok = true) :
    mimeScan true mime ((i, info) :: rest) src err
      = (some (Decoder.Open ⟨src, false, info.hooks⟩ err).dec, src,
         (Decoder.Open ⟨src, false, info.hooks⟩ err).err,
         [ResolveEvent.mimeQuery i, ResolveEvent.construct i src.id src.isOpen,
          ResolveEvent.openTry i]) := by
  simp [mimeScan, hm, hok]

/-- Branch equation: MIME match at the head, automatic open failing — the scan
continues on the tail with the input source taken back from the failed
decoder. -/
theorem mimeScan_cons_pos_auto_fail (mime : String) (i : Nat) (info : SubclassInfo)
    (rest : List (Nat × SubclassInfo)) (src : InputSource) (err : Option Err)
    (hm : info.handlesMIME mime = true)
    (hok : (Decoder.Open ⟨src, false, info.hooks⟩ err).ok = false) :
    mimeScan true mime ((i, info) :: rest) src err
      = ((mimeScan true mime rest (Decoder.Open ⟨src, false, info.hooks⟩ err).dec.mInputSource
            (Decoder.Open ⟨src, false, info.hooks⟩ err).err).1,
         (mimeScan true mime rest (Decoder.Open ⟨src, false, info.hooks⟩ err).dec.mInputSource
            (Decoder.Open ⟨src, false, info.hooks⟩ err).err).2.1,
         (mimeScan true mime rest (Decoder.Open ⟨src, false, info.hooks⟩ err).dec.mInputSource
            (Decoder.Open ⟨src, false, info.hooks⟩ err).err).2.2.1,
         ResolveEvent.mimeQuery i :: ResolveEvent.construct i src.id src.isOpen ::
           ResolveEvent.openTry i ::
           (mimeScan true mime rest (Decoder.Open ⟨src, false, info.hooks⟩ err).dec.mInputSource
              (Decoder.Open ⟨src, false, info.hooks⟩ err).err).2.2.2) := by
  simp [mimeScan, hm, hok]

/-- Branch equation: no MIME match at the head. -/
theorem mimeScan_cons_neg (autoOpen : Bool) (mime : String) (i : Nat)
    (info : SubclassInfo) (rest : List (Nat × SubclassInfo)) (src : InputSource)
    (err : Option Err) (hm : info.handlesMIME mime = false) :
    mimeScan autoOpen mime ((i, info) :: rest) src err
      = ((mimeScan autoOpen mime rest src err).1,
         (mimeScan autoOpen mime rest src err).2.1,
         (mimeScan autoOpen mime rest src err).2.2.1,
         ResolveEvent.mimeQuery i :: (mimeScan autoOpen mime rest src err).2.2.2) := by
  simp [mimeScan, hm]

/-- Branch equation: extension match at the head without automatic open. -/
theorem extScan_cons_pos_noauto (ext : String) (i : Nat) (info : SubclassInfo)
    (rest : List (Nat × SubclassInfo)) (src : InputSource) (err : Option Err)
    (hm : info.handlesExt ext = true) :
    extScan false ext ((i, info) :: rest) src err
      = (some ⟨src, false, info.hooks⟩, src, err,
         [ResolveEvent.extQuery i, ResolveEvent.construct i src.id src.isOpen]) := by
  simp [extScan, hm]

/-- Branch equation: extension match at the head, automatic open succeeding. -/
theorem extScan_cons_pos_auto_ok (ext : String) (i : Nat) (info : SubclassInfo)
    (rest : List (Nat × SubclassInfo)) (src : InputSource) (err : Option Err)
    (hm : info.handlesExt ext = true)
    (hok : (Decoder.Open ⟨src, false, info.hooks⟩ err).ok = true) :
    extScan true ext ((i, info) :: rest) src err
      = (some (Decoder.Open ⟨src, false, info.hooks⟩ err).dec, src,
         (Decoder.Open ⟨src, false, info.hooks⟩ err).err,
         [ResolveEvent.extQuery i, ResolveEvent.construct i src.id src.isOpen,
          ResolveEvent.openTry i]) := by
  simp [extScan, hm, hok]

/-- Branch equation: extension match at the head, automatic open failing. -/
theorem extScan_cons_pos_auto_fail (ext : String) (i : Nat) (info : SubclassInfo)
    (rest : List (Nat × SubclassInfo)) (src : InputSource) (err : Option Err)
    (hm : info.handlesExt ext = true)
    (hok : (Decoder.Open ⟨src, false, info.hooks⟩ err).ok = false) :
    extScan true ext ((i, info) :: rest) src err
      = ((extScan true ext rest (Decoder.Open ⟨src, false, info.hooks⟩ err).dec.mInputSource
            (Decoder.Open ⟨src, false, info.hooks⟩ err).err).1,
         (extScan true ext rest (Decoder.Open ⟨src, false, info.hooks⟩ err).dec.mInputSource
            (Decoder.Open ⟨src, false, info.hooks⟩ err).err).2.1,
         (extScan true ext rest (Decoder.Open ⟨src, false, info.hooks⟩ err).dec.mInputSource
            (Decoder.Open ⟨src, false, info.hooks⟩ err).err).2.2.1,
         ResolveEvent.extQuery i :: ResolveEvent.construct i src.id src.isOpen ::
           ResolveEvent.openTry i ::
           (extScan true ext rest (Decoder.Open ⟨src, false, info.hooks⟩ err).dec.mInputSource
              (Decoder.Open ⟨src, false, info.hooks⟩ err).err).2.2.2) := by
  simp [extScan, hm, hok]

/-- Branch equation: no extension match at the head. -/
theorem extScan_cons_neg (autoOpen : Bool) (ext : String) (i : Nat)
    (info : SubclassInfo) (rest : List (Nat × SubclassInfo)) (src : InputSource)
    (err : Option Err) (hm : info.handlesExt ext = false) :
    extScan autoOpen ext ((i, info) :: rest) src err
      = ((extScan autoOpen ext rest src err).1,
         (extScan autoOpen ext rest src err).2.1,
         (extScan autoOpen ext rest src err).2.2.1,
         ResolveEvent.extQuery i :: (extScan autoOpen ext rest src err).2.2.2) := by
  simp [extScan, hm]

/-- The MIME loop emits no extension capability queries. -/
theorem mimeScan_no_extQuery (autoOpen : Bool) (mime : String)
    (l : List (Nat × SubclassInfo)) :
    ∀ (src : InputSource) (err : Option Err) (ev : ResolveEvent),
      ev ∈ (mimeScan autoOpen mime l src err).2.2.2 → ev.isExtQuery = false := by
  induction l with
  | nil =>
    intro src err ev h
    simp [mimeScan] at h
  | cons q rest ih =>
    obtain ⟨i, info⟩ := q
    intro src err ev h
    cases hm : info.handlesMIME mime with
    | false =>
      rw [mimeScan_cons_neg autoOpen mime i info rest src err hm] at h
      rcases List.mem_cons.mp h with rfl | h1
      · rfl
      · exact ih _ _ ev h1
    | true =>
      cases autoOpen with
      | false =>
        rw [mimeScan_cons_pos_noauto mime i info rest src err hm] at h
        rcases List.mem_cons.mp h with rfl | h1
        · rfl
        rcases List.mem_cons.mp h1 with rfl | h2
        · rfl
        exact absurd h2 (List.not_mem_nil _)
      | true =>
        cases hok : (Decoder.Open ⟨src, false, info.hooks⟩ err).ok with
        | true =>
          rw [mimeScan_cons_pos_auto_ok mime i info rest src err hm hok] at h
          rcases List.mem_cons.mp h with rfl | h1
          · rfl
          rcases List.mem_cons.mp h1 with rfl | h2
          · rfl
          rcases List.mem_cons.mp h2 with rfl | h3
          · rfl
          exact absurd h3 (List.not_mem_nil _)
        | false =>
          rw [mimeScan_cons_pos_auto_fail mime i info rest src err hm hok] at h
          rcases List.mem_cons.mp h with rfl | h1
          · rfl
          rcases List.mem_cons.mp h1 with rfl | h2
          · rfl
          rcases List.mem_cons.mp h2 with rfl | h3
          · rfl
          exact ih _ _ ev h3

/-- The extension loop emits no MIME capability queries. -/
theorem extScan_no_mimeQuery (autoOpen : Bool) (ext : String)
    (l : List (Nat × SubclassInfo)) :
    ∀ (src : InputSource) (err : Option Err) (ev : ResolveEvent),
      ev ∈ (extScan autoOpen ext l src err).2.2.2 → ev.isMimeQuery = false := by
  induction l with
  | nil =>
    intro src err ev h
    simp [extScan] at h
  | cons q rest ih =>
    obtain ⟨i, info⟩ := q
    intro src err ev h
    cases hm : info.handlesExt ext with
    | false =>
      rw [extScan_cons_neg autoOpen ext i info rest src err hm] at h
      rcases List.mem_cons.mp h with rfl | h1
      · rfl
      · exact ih _ _ ev h1
    | true =>
      cases autoOpen with
      | false =>
        rw [extScan_cons_pos_noauto ext i info rest src err hm] at h
        rcases List.mem_cons.mp h with rfl | h1
        · rfl
        rcases List.mem_cons.mp h1 with rfl | h2
        · rfl
        exact absurd h2 (List.not_mem_nil _)
      | true =>
        cases hok : (Decoder.Open ⟨src, false, info.hooks⟩ err).ok with
        | true =>
          rw [extScan_cons_pos_auto_ok ext i info rest src err hm hok] at h
          rcases List.mem_cons.mp h with rfl | h1
          · rfl
          rcases List.mem_cons.mp h1 with rfl | h2
          · rfl
          rcases List.mem_cons.mp h2 with rfl | h3
          · rfl
          exact absurd h3 (List.not_mem_nil _)
        | false =>
          rw [extScan_cons_pos_auto_fail ext i info rest src err hm hok] at h
          rcases List.mem_cons.mp h with rfl | h1
          · rfl
          rcases List.mem_cons.mp h1 with rfl | h2
          · rfl
          rcases List.mem_cons.mp h2 with rfl | h3
          · rfl
          exact ih _ _ ev h3

/-- The extension phase emits no MIME capability queries. -/
theorem extensionPhase_no_mimeQuery (autoOpen : Bool) (subs : List SubclassInfo)
    (src : InputSource) (err : Option Err) :
    ∀ ev ∈ (extensionPhase autoOpen subs src err).2.2, ev.isMimeQuery = false := by
  intro ev h
  cases hu : src.url with
  | none => simp [extensionPhase, hu] at h
  | some u =>
    cases hext : u.pathExtension with
    | none => simp [extensionPhase, hu, hext] at h
    | some ext =>
      simp only [extensionPhase, hu, hext] at h
      exact extScan_no_mimeQuery autoOpen ext subs.enum src err ev h

/-- Without automatic open, the MIME loop returns a decoder for the first
matching subclass descriptor (in registration order) wrapped around the
current input source, and nothing when no descriptor matches. -/
theorem mimeScan_false_first_match (mime : String) (l : List (Nat × SubclassInfo)) :
    ∀ (src : InputSource) (err : Option Err),
      (mimeScan false mime l src err).1
        = (l.find? (fun q => q.2.handlesMIME mime)).map
            (fun q => (⟨src, false, q.2.hooks⟩ : Decoder)) := by
  induction l with
  | nil => intro src err; simp [mimeScan]
  | cons q rest ih =>
    obtain ⟨i, info⟩ := q
    intro src err
    cases hm : info.handlesMIME mime with
    | true =>
      rw [mimeScan_cons_pos_noauto mime i info rest src err hm]
      rw [List.find?_cons]
      simp [hm]
    | false =>
      rw [mimeScan_cons_neg false mime i info rest src err hm]
      rw [List.find?_cons]
      simp [hm, ih]

/-- Branch equation: when no automatic source open is needed, resolution is
just the two phases on the unchanged source. -/
theorem createDecoder_open_skip (autoOpen : Bool) (subs : List SubclassInfo)
    (src : InputSource) (mime : Option String) (e0 : Option Err)
    (h : (autoOpen && !src.isOpen) = false) :
    CreateDecoderForInputSource autoOpen subs (some src) mime e0
      = resolvePhases autoOpen subs src mime e0 := by
  simp [CreateDecoderForInputSource, h]

/-- Branch equation: automatic source open needed and succeeding. -/
theorem createDecoder_open_do_ok (autoOpen : Bool) (subs : List SubclassInfo)
    (src : InputSource) (mime : Option String) (e0 : Option Err)
    (h : (autoOpen && !src.isOpen) = true) (hok : src.openOk = true) :
    CreateDecoderForInputSource autoOpen subs (some src) mime e0
      = resolvePhases autoOpen subs { src with isOpen := true } mime e0 := by
  simp [CreateDecoderForInputSource, InputSource.openSrc, h, hok]

/-- Branch equation: automatic source open needed and failing aborts
resolution. -/
theorem createDecoder_open_do_fail (autoOpen : Bool) (subs : List SubclassInfo)
    (src : InputSource) (mime : Option String) (e0 : Option Err)
    (h : (autoOpen && !src.isOpen) = true) (hok : src.openOk = false) :
    CreateDecoderForInputSource autoOpen subs (some src) mime e0
      = (none, some Err.sourceOpenFailed, []) := by
  simp [CreateDecoderForInputSource, InputSource.openSrc, h, hok]

/-- Branch equation: with no MIME type the phases are just the extension
phase. -/
theorem resolvePhases_none (autoOpen : Bool) (subs : List SubclassInfo)
    (src1 : InputSource) (e1 : Option Err) :
    resolvePhases autoOpen subs src1 none e1 = extensionPhase autoOpen subs src1 e1 :=
  rfl

/-- Branch equation: a successful MIME loop decides resolution. -/
theorem resolvePhases_found (autoOpen : Bool) (subs : List SubclassInfo)
    (src1 : InputSource) (m : String) (e1 : Option Err) (d : Decoder)
    (s2 : InputSource) (e2 : Option Err) (tr : List ResolveEvent)
    (h : mimeScan autoOpen m subs.enum src1 e1 = (some d, s2, e2, tr)) :
    resolvePhases autoOpen subs src1 (some m) e1 = (some d, e2, tr) := by
  simp [resolvePhases, h]

/-- Branch equation: an exhausted MIME loop falls through to the extension
phase on the source the loop left behind, with the traces concatenated. -/
theorem resolvePhases_notfound (autoOpen : Bool) (subs : List SubclassInfo)
    (src1 : InputSource) (m : String) (e1 : Option Err)
    (s2 : InputSource) (e2 : Option Err) (tr : List ResolveEvent)
    (h : mimeScan autoOpen m subs.enum src1 e1 = (none, s2, e2, tr)) :
    resolvePhases autoOpen subs src1 (some m) e1
      = ((extensionPhase autoOpen subs s2 e2).1,
         (extensionPhase autoOpen subs s2 e2).2.1,
         tr ++ (extensionPhase autoOpen subs s2 e2).2.2) := by
  simp [resolvePhases, h]

/-- The trace of the two phases always splits into a MIME part free of
extension queries followed of an extension part free of MIME queries. -/
theorem resolvePhases_trace_split (autoOpen : Bool) (subs : List SubclassInfo)
    (src1 : InputSource) (mime : Option String) (e1 : Option Err) :
    ∃ A B, (resolvePhases autoOpen subs src1 mime e1).2.2 = A ++ B
      ∧ (∀ ev ∈ A, ev.isExtQuery = false) ∧ (∀ ev ∈ B, ev.isMimeQuery = false) := by
  cases mime with
  | none =>
    exact ⟨[], (extensionPhase autoOpen subs src1 e1).2.2, by simp [resolvePhases_none],
      by simp, extensionPhase_no_mimeQuery autoOpen subs src1 e1⟩
  | some m =>
    rcases hms : mimeScan autoOpen m subs.enum src1 e1 with ⟨od, s2, e2, tr⟩
    have htr : ∀ ev ∈ tr, ev.isExtQuery = false := by
      intro ev hev
      have hq := mimeScan_no_extQuery autoOpen m subs.enum src1 e1 ev
      rw [hms] at hq
      exact hq hev
    cases od with
    | some d =>
      refine ⟨tr, [], ?_, htr, by simp⟩
      rw [resolvePhases_found autoOpen subs src1 m e1 d s2 e2 tr hms]
      simp
    | none =>
      refine ⟨tr, (extensionPhase autoOpen subs s2 e2).2.2, ?_, htr,
        extensionPhase_no_mimeQuery autoOpen subs s2 e2⟩
      rw [resolvePhases_notfound autoOpen subs src1 m e1 s2 e2 tr hms]

/-! Claim C2. -/

/-- Claim C2: MIME-type matching strictly precedes extension matching — the
resolution trace always splits into a MIME phase free of extension queries
followed by an extension phase free of MIME queries; when a MIME type is
supplied and some plugin handles it (shown here without automatic open, where
first match wins outright), the first MIME-matching plugin in registration
order is selected and no extension query is ever made; and when no MIME type
is supplied, no MIME query is ever made. -/
theorem mime_precedes_extension (autoOpen : Bool) (subs : List SubclassInfo)
    (src : InputSource) (mime : Option String) (e0 : Option Err) :
    (∃ A B, (CreateDecoderForInputSource autoOpen subs (some src) mime e0).2.2 = A ++ B
      ∧ (∀ ev ∈ A, ev.isExtQuery = false) ∧ (∀ ev ∈ B, ev.isMimeQuery = false))
    ∧ (∀ m, mime = some m → autoOpen = false →
        subs.any (fun info => info.handlesMIME m) = true →
        (∃ p, subs.enum.find? (fun q => q.2.handlesMIME m) = some p
          ∧ (CreateDecoderForInputSource autoOpen subs (some src) mime e0).1
              = some ⟨src, false, p.2.hooks⟩)
        ∧ ∀ i, ResolveEvent.extQuery i
            ∉ (CreateDecoderForInputSource autoOpen subs (some src) mime e0).2.2)
    ∧ (mime = none →
        ∀ i, ResolveEvent.mimeQuery i
          ∉ (CreateDecoderForInputSource autoOpen subs (some src) mime e0).2.2) := by
  refine ⟨?_, ?_, ?_⟩
  · cases hso : (autoOpen && !src.isOpen) with
    | true =>
      cases hok : src.openOk with
      | false =>
        rw [createDecoder_open_do_fail autoOpen subs src mime e0 hso hok]
        exact ⟨[], [], rfl, by simp, by simp⟩
      | true =>
        rw [createDecoder_open_do_ok autoOpen subs src mime e0 hso hok]
        exact resolvePhases_trace_split autoOpen subs { src with isOpen := true } mime e0
    | false =>
      rw [createDecoder_open_skip autoOpen subs src mime e0 hso]
      exact resolvePhases_trace_split autoOpen subs src mime e0
  · intro m hm hao hany
    subst hm
    subst hao
    have hso : (false && !src.isOpen) = false := by simp
    rw [createDecoder_open_skip false subs src (some m) e0 hso]
    rcases hms : mimeScan false m subs.enum src e0 with ⟨od, s2, e2, tr⟩
    have hfm := mimeScan_false_first_match m subs.enum src e0
    rw [hms] at hfm
    have hfind : ∃ p, subs.enum.find? (fun q => q.2.handlesMIME m) = some p := by
      rw [← Option.isSome_iff_exists, List.find?_isSome]
      rw [List.any_eq_true] at hany
      obtain ⟨info, hmem, hinfo⟩ := hany
      obtain ⟨j, hj⟩ := List.mem_iff_getElem?.mp hmem
      exact ⟨(j, info), List.mem_enum_iff_getElem?.mpr hj, hinfo⟩
    obtain ⟨p, hp⟩ := hfind
    rw [hp] at hfm
    simp only [Option.map_some] at hfm
    subst hfm
    constructor
    · refine ⟨p, hp, ?_⟩
      rw [resolvePhases_found false subs src m e0 _ s2 e2 tr hms]
    · intro i hmem
      rw [resolvePhases_found false subs src m e0 _ s2 e2 tr hms] at hmem
      have hq := mimeScan_no_extQuery false m subs.enum src e0 (ResolveEvent.extQuery i)
      rw [hms] at hq
      have := hq hmem
      simp [ResolveEvent.isExtQuery] at this
  · intro hm i hmem
    subst hm
    cases hso : (autoOpen && !src.isOpen) with
    | true =>
      cases hok : src.openOk with
      | false =>
        rw [createDecoder_open_do_fail autoOpen subs src none e0 hso hok] at hmem
        simp at hmem
      | true =>
        rw [createDecoder_open_do_ok autoOpen subs src none e0 hso hok,
          resolvePhases_none] at hmem
        have := extensionPhase_no_mimeQuery autoOpen subs { src with isOpen := true } e0 _ hmem
        simp [ResolveEvent.isMimeQuery] at this
    | false =>
      rw [createDecoder_open_skip autoOpen subs src none e0 hso,
        resolvePhases_none] at hmem
      have := extensionPhase_no_mimeQuery autoOpen subs src e0 _ hmem
      simp [ResolveEvent.isMimeQuery] at this

/-- Hook behaviour distinguishing the MIME-selected plugin in the C2 witness. -/
def mimeHooks : Hooks :=
  ⟨true, true, fun n => n, 200, 0, true, fun f => f⟩

/-- A plugin matching only the extension "mp3" (plugin A of the spec's
testable property). -/
def extOnlyInfo : SubclassInfo :=
  ⟨["mp3"], [], idHooks⟩

/-- A plugin matching only the MIME type "audio/mpeg" (plugin B of the spec's
testable property). -/
def mimeOnlyInfo : SubclassInfo :=
  ⟨[], ["audio/mpeg"], mimeHooks⟩

/-- An open source whose extension matches `extOnlyInfo`. -/
def mp3Source : InputSource :=
  ⟨3, true, true, true, some ⟨some "mp3"⟩⟩

/-- Witness for C2: with the extension-matching plugin registered first and a
MIME type supplied, the MIME-matching plugin is selected and no extension
query happens. -/
theorem mime_precedes_extension_witness :
    (∃ p, [extOnlyInfo, mimeOnlyInfo].enum.find?
        (fun q => q.2.handlesMIME "audio/mpeg") = some p
      ∧ (CreateDecoderForInputSource false [extOnlyInfo, mimeOnlyInfo]
          (some mp3Source) (some "audio/mpeg") none).1
          = some ⟨mp3Source, false, p.2.hooks⟩)
    ∧ ∀ i, ResolveEvent.extQuery i
        ∉ (CreateDecoderForInputSource false [extOnlyInfo, mimeOnlyInfo]
            (some mp3Source) (some "audio/mpeg") none).2.2 :=
  (mime_precedes_extension false [extOnlyInfo, mimeOnlyInfo] mp3Source
      (some "audio/mpeg") none).2.1 "audio/mpeg" rfl rfl (by decide)

/-! Claim C3: reclaim-and-continue.  The key invariant is that with automatic
open enabled and an already-open source, a failed decoder open hands the very
same input source back to the loop, so every constructed decoder receives the
original source, still open. -/

/-- Reduced branch equation: MIME match at the head whose decoder open fails
over an already-open source — the loop continues on the tail with exactly the
original source. -/
theorem mimeScan_cons_fail_reduced (mime : String) (i : Nat) (info : SubclassInfo)
    (rest : List (Nat × SubclassInfo)) (src : InputSource) (e : Option Err)
    (hm : info.handlesMIME mime = true) (ho : src.isOpen = true)
    (hfi : info.hooks.openResult = false) :
    mimeScan true mime ((i, info) :: rest) src e
      = ((mimeScan true mime rest src (some Err.hookOpenFailed)).1,
         (mimeScan true mime rest src (some Err.hookOpenFailed)).2.1,
         (mimeScan true mime rest src (some Err.hookOpenFailed)).2.2.1,
         ResolveEvent.mimeQuery i :: ResolveEvent.construct i src.id true ::
           ResolveEvent.openTry i ::
           (mimeScan true mime rest src (some Err.hookOpenFailed)).2.2.2) := by
  have hOpen := Open_fail_keeps_source src info.hooks e ho hfi
  rw [mimeScan_cons_pos_auto_fail mime i info rest src e hm (by rw [hOpen])]
  rw [hOpen, ho]

/-- Reduced branch equation: extension match at the head whose decoder open
fails over an already-open source. -/
theorem extScan_cons_fail_reduced (ext : String) (i : Nat) (info : SubclassInfo)
    (rest : List (Nat × SubclassInfo)) (src : InputSource) (e : Option Err)
    (hm : info.handlesExt ext = true) (ho : src.isOpen = true)
    (hfi : info.hooks.openResult = false) :
    extScan true ext ((i, info) :: rest) src e
      = ((extScan true ext rest src (some Err.hookOpenFailed)).1,
         (extScan true ext rest src (some Err.hookOpenFailed)).2.1,
         (extScan true ext rest src (some Err.hookOpenFailed)).2.2.1,
         ResolveEvent.extQuery i :: ResolveEvent.construct i src.id true ::
           ResolveEvent.openTry i ::
           (extScan true ext rest src (some Err.hookOpenFailed)).2.2.2) := by
  have hOpen := Open_fail_keeps_source src info.hooks e ho hfi
  rw [extScan_cons_pos_auto_fail ext i info rest src e hm (by rw [hOpen])]
  rw [hOpen, ho]

/-- When every registered plugin's open hook fails, the MIME loop over an open
source yields no decoder, hands back exactly the original source, every
constructed decoder received the original source in the open state, and a
decoder was constructed for every MIME-matching plugin (the loop kept
scanning). -/
theorem mimeScan_allFail (mime : String) (l : List (Nat × SubclassInfo)) :
    ∀ (src : InputSource) (e : Option Err), src.isOpen = true →
      (∀ p ∈ l, p.2.hooks.openResult = false) →
      (mimeScan true mime l src e).1 = none
      ∧ (mimeScan true mime l src e).2.1 = src
      ∧ (∀ i sid b, ResolveEvent.construct i sid b ∈ (mimeScan true mime l src e).2.2.2
          → sid = src.id ∧ b = true)
      ∧ (∀ p ∈ l, p.2.handlesMIME mime = true
          → ResolveEvent.construct p.1 src.id true ∈ (mimeScan true mime l src e).2.2.2) := by
  induction l with
  | nil =>
    intro src e ho hf
    refine ⟨rfl, rfl, ?_, ?_⟩
    · intro i sid b h
      simp [mimeScan] at h
    · intro p hp
      simp at hp
  | cons q rest ih =>
    intro src e ho hf
    obtain ⟨i, info⟩ := q
    have hfi : info.hooks.openResult = false := hf (i, info) (List.mem_cons_self _ _)
    have hfr : ∀ p ∈ rest, p.2.hooks.openResult = false :=
      fun p hp => hf p (List.mem_cons_of_mem _ hp)
    cases hm : info.handlesMIME mime with
    | true =>
      rw [mimeScan_cons_fail_reduced mime i info rest src e hm ho hfi]
      obtain ⟨ih1, ih2, ih3, ih4⟩ := ih src (some Err.hookOpenFailed) ho hfr
      refine ⟨ih1, ih2, ?_, ?_⟩
      · intro i2 sid b h
        rcases List.mem_cons.mp h with hc | h
        · exact absurd hc (by simp)
        rcases List.mem_cons.mp h with hc | h
        · injection hc with e1 e2 e3
          exact ⟨e2, e3⟩
        rcases List.mem_cons.mp h with hc | h
        · exact absurd hc (by simp)
        exact ih3 i2 sid b h
      · intro p hp hpm
        rcases List.mem_cons.mp hp with rfl | hp2
        · exact List.mem_cons_of_mem _ (List.mem_cons_self _ _)
        · exact List.mem_cons_of_mem _ (List.mem_cons_of_mem _
            (List.mem_cons_of_mem _ (ih4 p hp2 hpm)))
    | false =>
      rw [mimeScan_cons_neg true mime i info rest src e hm]
      obtain ⟨ih1, ih2, ih3, ih4⟩ := ih src e ho hfr
      refine ⟨ih1, ih2, ?_, ?_⟩
      · intro i2 sid b h
        rcases List.mem_cons.mp h with hc | h
        · exact absurd hc (by simp)
        exact ih3 i2 sid b h
      · intro p hp hpm
        rcases List.mem_cons.mp hp with rfl | hp2
        · simp [hm] at hpm
        · exact List.mem_cons_of_mem _ (ih4 p hp2 hpm)

/-- The extension-loop analogue of `mimeScan_allFail`. -/
theorem extScan_allFail (ext : String) (l : List (Nat × SubclassInfo)) :
    ∀ (src : InputSource) (e : Option Err), src.isOpen = true →
      (∀ p ∈ l, p.2.hooks.openResult = false) →
      (extScan true ext l src e).1 = none
      ∧ (extScan true ext l src e).2.1 = src
      ∧ (∀ i sid b, ResolveEvent.construct i sid b ∈ (extScan true ext l src e).2.2.2
          → sid = src.id ∧ b = true)
      ∧ (∀ p ∈ l, p.2.handlesExt ext = true
          → ResolveEvent.construct p.1 src.id true ∈ (extScan true ext l src e).2.2.2) := by
  induction l with
  | nil =>
    intro src e ho hf
    refine ⟨rfl, rfl, ?_, ?_⟩
    · intro i sid b h
      simp [extScan] at h
    · intro p hp
      simp at hp
  | cons q rest ih =>
    intro src e ho hf
    obtain ⟨i, info⟩ := q
    have hfi : info.hooks.openResult = false := hf (i, info) (List.mem_cons_self _ _)
    have hfr : ∀ p ∈ rest, p.2.hooks.openResult = false :=
      fun p hp => hf p (List.mem_cons_of_mem _ hp)
    cases hm : info.handlesExt ext with
    | true =>
      rw [extScan_cons_fail_reduced ext i info rest src e hm ho hfi]
      obtain ⟨ih1, ih2, ih3, ih4⟩ := ih src (some Err.hookOpenFailed) ho hfr
      refine ⟨ih1, ih2, ?_, ?_⟩
      · intro i2 sid b h
        rcases List.mem_cons.mp h with hc | h
        · exact absurd hc (by simp)
        rcases List.mem_cons.mp h with hc | h
        · injection hc with e1 e2 e3
          exact ⟨e2, e3⟩
        rcases List.mem_cons.mp h with hc | h
        · exact absurd hc (by simp)
        exact ih3 i2 sid b h
      · intro p hp hpm
        rcases List.mem_cons.mp hp with rfl | hp2
        · exact List.mem_cons_of_mem _ (List.mem_cons_self _ _)
        · exact List.mem_cons_of_mem _ (List.mem_cons_of_mem _
            (List.mem_cons_of_mem _ (ih4 p hp2 hpm)))
    | false =>
      rw [extScan_cons_neg true ext i info rest src e hm]
      obtain ⟨ih1, ih2, ih3, ih4⟩ := ih src e ho hfr
      refine ⟨ih1, ih2, ?_, ?_⟩
      · intro i2 sid b h
        rcases List.mem_cons.mp h with hc | h
        · exact absurd hc (by simp)
        exact ih3 i2 sid b h
      · intro p hp hpm
        rcases List.mem_cons.mp hp with rfl | hp2
        · simp [hm] at hpm
        · exact List.mem_cons_of_mem _ (ih4 p hp2 hpm)

/-- The extension phase under all-failing open hooks: no decoder, every
construction event carries the original open source, and every
extension-matching plugin got a construction attempt when the locator carries
an extension. -/
theorem extensionPhase_allFail (subs : List SubclassInfo) (src : InputSource)
    (e : Option Err) (ho : src.isOpen = true)
    (hf : ∀ info ∈ subs, info.hooks.openResult = false) :
    (extensionPhase true subs src e).1 = none
    ∧ (∀ i sid b, ResolveEvent.construct i sid b ∈ (extensionPhase true subs src e).2.2
        → sid = src.id ∧ b = true)
    ∧ (∀ u ext, src.url = some u → u.pathExtension = some ext →
        ∀ p ∈ subs.enum, p.2.handlesExt ext = true →
          ResolveEvent.construct p.1 src.id true ∈ (extensionPhase true subs src e).2.2) := by
  have hfe : ∀ p ∈ subs.enum, p.2.hooks.openResult = false :=
    fun p hp => hf p.2 (List.snd_mem_of_mem_enum hp)
  cases hu : src.url with
  | none =>
    refine ⟨by simp [extensionPhase, hu], ?_, ?_⟩
    · intro i sid b h
      simp [extensionPhase, hu] at h
    · intro u ext huu
      exact absurd huu (by simp)
  | some u0 =>
    cases hext : u0.pathExtension with
    | none =>
      refine ⟨by simp [extensionPhase, hu, hext], ?_, ?_⟩
      · intro i sid b h
        simp [extensionPhase, hu, hext] at h
      · intro u ext huu hee
        injection huu with huu
        subst huu
        rw [hext] at hee
        exact absurd hee (by simp)
    | some ext0 =>
      obtain ⟨a1, a2, a3, a4⟩ := extScan_allFail ext0 subs.enum src e ho hfe
      refine ⟨?_, ?_, ?_⟩
      · simp only [extensionPhase, hu, hext]
        exact a1
      · intro i sid b h
        simp only [extensionPhase, hu, hext] at h
        exact a3 i sid b h
      · intro u ext huu hee p hp hpm
        injection huu with huu
        subst huu
        rw [hext] at hee
        injection hee with hee
        subst hee
        simp only [extensionPhase, hu, hext]
        exact a4 p hp hpm

/-- Claim C3: with automatic open enabled, an open source and every plugin's
open hook failing, resolution yields no decoder, every decoder construction in
the whole run (MIME loop and extension loop alike) received the original
input source, still open — the source is reclaimed from each failed decoder,
neither closed nor dropped — and the loop kept scanning: every MIME-matching
plugin got a construction, and, when the locator carries an extension, so did
every extension-matching plugin after the fall-through. -/
theorem open_failure_reclaims_source (subs : List SubclassInfo) (src : InputSource)
    (m : String) (e0 : Option Err) (hopen : src.isOpen = true)
    (hfail : ∀ info ∈ subs, info.hooks.openResult = false) :
    (CreateDecoderForInputSource true subs (some src) (some m) e0).1 = none
    ∧ (∀ i sid b, ResolveEvent.construct i sid b
        ∈ (CreateDecoderForInputSource true subs (some src) (some m) e0).2.2
        → sid = src.id ∧ b = true)
    ∧ (∀ p ∈ subs.enum, p.2.handlesMIME m = true →
        ResolveEvent.construct p.1 src.id true
          ∈ (CreateDecoderForInputSource true subs (some src) (some m) e0).2.2)
    ∧ (∀ u ext, src.url = some u → u.pathExtension = some ext →
        ∀ p ∈ subs.enum, p.2.handlesExt ext = true →
          ResolveEvent.construct p.1 src.id true
            ∈ (CreateDecoderForInputSource true subs (some src) (some m) e0).2.2) := by
  have hso : (true && !src.isOpen) = false := by simp [hopen]
  rw [createDecoder_open_skip true subs src (some m) e0 hso]
  have hfe : ∀ p ∈ subs.enum, p.2.hooks.openResult = false :=
    fun p hp => hfail p.2 (List.snd_mem_of_mem_enum hp)
  obtain ⟨m1, m2, m3, m4⟩ := mimeScan_allFail m subs.enum src e0 hopen hfe
  have hms0 : mimeScan true m subs.enum src e0
      = ((mimeScan true m subs.enum src e0).1, (mimeScan true m subs.enum src e0).2.1,
         (mimeScan true m subs.enum src e0).2.2.1,
         (mimeScan true m subs.enum src e0).2.2.2) := rfl
  rw [m1, m2] at hms0
  rw [resolvePhases_notfound true subs src m e0 src
    ((mimeScan true m subs.enum src e0).2.2.1)
    ((mimeScan true m subs.enum src e0).2.2.2) hms0]
  obtain ⟨x1, x2, x3⟩ :=
    extensionPhase_allFail subs src ((mimeScan true m subs.enum src e0).2.2.1) hopen hfail
  refine ⟨x1, ?_, ?_, ?_⟩
  · intro i sid b h
    rcases List.mem_append.mp h with h | h
    · exact m3 i sid b h
    · exact x2 i sid b h
  · intro p hp hpm
    exact List.mem_append_left _ (m4 p hp hpm)
  · intro u ext hu he p hp hpm
    exact List.mem_append_right _ (x3 u ext hu he p hp hpm)

/-- Hook behaviour whose open hook always fails. -/
def failOpenHooks : Hooks :=
  ⟨false, true, fun n => n, 100, 0, true, fun f => f⟩

/-- First plugin of the C3 witness, handling "mp3" / "audio/mpeg" but failing
to open. -/
def failA : SubclassInfo :=
  ⟨["mp3"], ["audio/mpeg"], failOpenHooks⟩

/-- Second plugin of the C3 witness, also handling "mp3" / "audio/mpeg" and
failing to open. -/
def failB : SubclassInfo :=
  ⟨["mp3"], ["audio/mpeg"], failOpenHooks⟩

/-- The open source the C3 witness resolves. -/
def mp3FailSource : InputSource :=
  ⟨4, true, true, true, some ⟨some "mp3"⟩⟩

/-- Witness for C3: after the first plugin's decoder fails to open, the second
MIME-matching plugin still gets a decoder constructed over the original,
still-open source. -/
theorem open_failure_reclaims_source_witness :
    ResolveEvent.construct 1 mp3FailSource.id true
      ∈ (CreateDecoderForInputSource true [failA, failB]
          (some mp3FailSource) (some "audio/mpeg") none).2.2 :=
  (open_failure_reclaims_source [failA, failB] mp3FailSource "audio/mpeg" none rfl
      (by decide)).2.2.1 (1, failB)
    (List.mem_cons_of_mem _ (List.mem_cons_self _ _)) (by decide)

end SFB.Audio

